import Mathlib

/-!
Verification of the flat-file DBMS (statement.py / table.py).

Commands and file contents are modelled as lists of characters (`Chars`).
File contents are modelled at the byte level: reading goes through
universal-newline translation, line splitting and comma splitting exactly
as Python’s text-mode `open` + `csv.reader` do on unquoted data; writing
reproduces `csv.writer`’s minimal quoting and its line terminators
(`’\n’` where the source passes `lineterminator=’\n’`, the `excel`
dialect default `’\r\n’` otherwise).
-/

set_option maxRecDepth 20000

deriving instance DecidableEq for Except

namespace Dbms

/-- Strings are modelled as lists of characters. -/
abbrev Chars := List Char

/-- The apostrophe character (used by INSERT value stripping). -/
def apos : Char := Char.ofNat 39

/-- Split a character list at every character satisfying `p`, keeping empty
segments (the model of Python `str.split(sep)` for a one-character `sep`). -/
def splitOnP (p : Char → Bool) : Chars → List Chars
  | [] => [[]]
  | c :: rest =>
    match splitOnP p rest with
    | [] => [[]]
    | y :: ys => if p c then [] :: y :: ys else (c :: y) :: ys

/-- Split on a single separator character. -/
def splitOnChar (sep : Char) (l : Chars) : List Chars :=
  splitOnP (fun c => c = sep) l

/-- Join segments with a single separator character. -/
def intercalateChar (sep : Char) : List Chars → Chars
  | [] => []
  | [x] => x
  | x :: y :: ys => x ++ sep :: intercalateChar sep (y :: ys)

/-- Whitespace test used by Python `str.split()` (ASCII fragment). -/
def isSpaceChar (c : Char) : Bool :=
  c = ' ' ∨ c = '\t' ∨ c = '\n' ∨ c = '\r'

/-- Python `str.split()`: split on whitespace runs, discarding empty parts. -/
def pySplit (l : Chars) : List Chars :=
  (splitOnP isSpaceChar l).filter (· ≠ [])

/-- Python `str.strip()`: drop leading and trailing whitespace. -/
def stripChars (l : Chars) : Chars :=
  ((l.dropWhile isSpaceChar).reverse.dropWhile isSpaceChar).reverse

/-- Worker for `removeAllSub`; the first argument is fuel bounding the
input length, consumed one unit per step so the recursion is structural
(a nonempty pattern match drops at least one character, so the fuel never
runs out before the input does). -/
def removeAllSubF (pat : Chars) : Nat → Chars → Chars
  | _, [] => []
  | 0, l => l
  | Nat.succ fuel, c :: rest =>
    if pat ≠ [] ∧ pat.isPrefixOf (c :: rest) then
      removeAllSubF pat fuel ((c :: rest).drop pat.length)
    else
      c :: removeAllSubF pat fuel rest

/-- Python `str.replace(old, new)` with `new = ""`: remove every occurrence
of `old`, scanning left to right (used for quote stripping and for the
join code’s alias stripping). -/
def removeAllSub (pat : Chars) (l : Chars) : Chars :=
  removeAllSubF pat l.length l

/-- Remove every occurrence of a single character (Python `str.replace(c, "")`). -/
def removeAllChar (ch : Char) (l : Chars) : Chars :=
  l.filter (· ≠ ch)

/-- Python text-mode reading uses universal newlines: `"\r\n"` and `"\r"`
are both translated to `"\n"`. -/
def translateNewlines : Chars → Chars
  | [] => []
  | ['\r'] => ['\n']
  | '\r' :: '\n' :: rest => '\n' :: translateNewlines rest
  | '\r' :: c :: rest => '\n' :: translateNewlines (c :: rest)
  | c :: rest => c :: translateNewlines rest

/-- The lines yielded by iterating a Python text file: newline-separated
chunks, except that the empty chunk after a final newline is not a line. -/
def fileLines (content : Chars) : List Chars :=
  let parts := splitOnChar '\n' (translateNewlines content)
  if parts.getLast? = some [] then parts.dropLast else parts

/-- Model of `csv.reader` on one line of unquoted data: a blank line yields the empty
row, any other line is split on commas. -/
def csvParseLine (l : Chars) : List Chars :=
  if l = [] then [] else splitOnChar ',' l

/-- All rows read from a file’s content (the model of iterating
`csv.reader(open(name))` on data without quoted fields). -/
def readRows (content : Chars) : List (List Chars) :=
  (fileLines content).map csvParseLine

/-- Model of `csv.writer` QUOTE_MINIMAL: a field is quoted iff it contains the
delimiter, the quote character or a newline character. -/
def needsQuote (f : Chars) : Bool :=
  f.any (fun c => c = ',' ∨ c = '"' ∨ c = '\r' ∨ c = '\n')

/-- Surround with quotes, doubling embedded quote characters. -/
def quoteField (f : Chars) : Chars :=
  '"' :: (f.flatMap (fun c => if c = '"' then ['"', '"'] else [c])) ++ ['"']

/-- One serialized csv field under minimal quoting. -/
def csvField (f : Chars) : Chars :=
  if needsQuote f then quoteField f else f

/-- One serialized csv row (no terminator).  `csv.writer` special-cases a
row made of a single empty field, writing it quoted so it is not mistaken
for a blank line. -/
def csvLine (r : List Chars) : Chars :=
  if r = [[]] then ['"', '"'] else intercalateChar ',' (r.map csvField)

/-- Serialize rows, terminating every line with `term`. -/
def writeRows (term : Chars) (rows : List (List Chars)) : Chars :=
  (rows.map (fun r => csvLine r ++ term)).flatten

/-- Pipe-join used for every emitted query output line. -/
def outLine (r : List Chars) : Chars := intercalateChar '|' r

/-- Everything of the file after the first newline (the data section
below the header line). -/
def dataSection : Chars → Chars
  | [] => []
  | '\n' :: rest => rest
  | _ :: rest => dataSection rest

/-- The terminator of each line of a file, in order: `"\r\n"` for lines
ended by carriage return + newline, `"\n"` otherwise. -/
def lineTerminators : Chars → List Chars
  | [] => []
  | ['\r'] => []
  | '\r' :: '\n' :: rest => ['\r', '\n'] :: lineTerminators rest
  | '\r' :: c :: rest => lineTerminators (c :: rest)
  | '\n' :: rest => ['\n'] :: lineTerminators rest
  | _ :: rest => lineTerminators rest

/-- Model of Python `int(str)`: optional surrounding whitespace, optional
sign, then a nonempty digit string. -/
def digitsToNat (ds : Chars) : Option Nat :=
  if ds = [] then none
  else if ds.all Char.isDigit then
    some (ds.foldl (fun a c => a * 10 + (c.toNat - 48)) 0)
  else none

/-- Python `int()` coercion of a decimal string. -/
def parseInt (l : Chars) : Option Int :=
  match stripChars l with
  | '-' :: ds => (digitsToNat ds).map (fun n => -(n : Int))
  | '+' :: ds => (digitsToNat ds).map (fun n => (n : Int))
  | ds => (digitsToNat ds).map (fun n => (n : Int))

/-- Lexicographic comparison of raw text values (code point order). -/
def lexLtChars : Chars → Chars → Bool
  | [], [] => false
  | [], _ :: _ => true
  | _ :: _, [] => false
  | a :: as, b :: bs =>
    if a.toNat < b.toNat then true
    else if a.toNat = b.toNat then lexLtChars as bs
    else false

/-!  ## The Condition Evaluator (Record)

`record.py` is not among the given source files (only `table.py` imports
and calls it), so the `Record` class is modelled from the spec.  -/

/-- Modelled from the spec: `record.py` (the `Record` class) is missing from
the sources.  Per the spec, a Record is a transient per-row view holding a
reference to the schema’s field names and declared types plus the row’s raw
string values, aligned positionally. -/
structure Record where
  field_names : List Chars
  field_types : List Chars
  values : List Chars
deriving DecidableEq

/-- Modelled from the spec: `value_of(field_name)` returns the raw value at
the position of `field_name` in the schema. -/
def Record.value_of (r : Record) (name : Chars) : Option Chars :=
  (r.field_names.findIdx? (· = name)).bind (fun i => r.values.get? i)

/-- Modelled from the spec: the declared type of a field, looked up by the
field’s position in the schema. -/
def Record.type_of (r : Record) (name : Chars) : Option Chars :=
  (r.field_names.findIdx? (· = name)).bind (fun i => r.field_types.get? i)

/-- Apply a binary comparison operator to two integers (operators `=`,
`!=`, `<`, `>`). -/
def applyOpInt (op : Chars) (a b : Int) : Bool :=
  if op = "=".data then a = b
  else if op = "!=".data then a ≠ b
  else if op = "<".data then decide (a < b)
  else if op = ">".data then decide (a > b)
  else false

/-- Apply a binary comparison operator to two raw text values. -/
def applyOpStr (op : Chars) (a b : Chars) : Bool :=
  if op = "=".data then a = b
  else if op = "!=".data then a ≠ b
  else if op = "<".data then lexLtChars a b
  else if op = ">".data then lexLtChars b a
  else false

/-- Modelled from the spec: `satisfies(condition_text)` parses a single
binary comparison `<field> <operator> <literal>`; the field’s declared type
decides numeric (`int`) versus lexical comparison; an absent or empty
condition is vacuously true. -/
def Record.satisfies (r : Record) (cond : Option Chars) : Bool :=
  match cond with
  | none => true
  | some c =>
    match pySplit c with
    | [] => true
    | [f, op, lit] =>
      match r.value_of f, r.type_of f with
      | some v, some ty =>
        if ty = "int".data then
          match parseInt v, parseInt lit with
          | some a, some b => applyOpInt op a b
          | _, _ => false
        else applyOpStr op v lit
      | _, _ => false
    | _ => false

/-- Modelled from the spec: `set_value(field_name, new_value)` mutates the
in-memory row value at the field’s schema position. -/
def Record.set_value (r : Record) (name v : Chars) : Record :=
  match r.field_names.findIdx? (· = name) with
  | some i => { r with values := r.values.set i v }
  | none => r

/-- Modelled from the spec: `values(selected_fields?)` returns all values in
schema order when no selection is given or when the selection is the
all-columns selection `["*"]` (§4.3, single-table strategy), else only the
requested fields in the order requested. -/
def Record.get_values (r : Record) (sel : Option (List Chars)) : List Chars :=
  match sel with
  | none => r.values
  | some s =>
    if s = ["*".data] then r.values
    else s.map (fun f => (r.value_of f).getD [])

/-!  ## The Table Engine (table.py)

Table operations are modelled as pure functions on the backing file’s
content.  The file-existence checks (`_check_table_exists`) are inherent
to the filesystem and are elided: a content value is always available.
Mutating operations return the pair (resulting file content, status line
or error); on every error path the raise happens before any write in the
source, so the returned content is the input content. -/

/-- Errors raised by the table engine, keyed to the raise sites of
`table.py` (an empty file makes `next(reader)` raise StopIteration; a
header field without a type token makes `field.split()[1]` raise
IndexError). -/
inductive TableErr
  | emptyFile
  | malformedHeader
  | unknownField (f : Chars)
  | arityMismatch
  | typeCoercion
  | maxEmpty
  | divByZero
  | aliasOnNone
deriving DecidableEq

/-- Model of `Table._get_field_names`: first word of every header field. -/
def get_field_names (content : Chars) : Option (List Chars) :=
  (readRows content).head?.bind (fun header => header.mapM (fun f => (pySplit f).get? 0))

/-- Model of `Table._get_field_types`: second word of every header field. -/
def get_field_types (content : Chars) : Option (List Chars) :=
  (readRows content).head?.bind (fun header => header.mapM (fun f => (pySplit f).get? 1))

/-- Status line of `Table.delete`. -/
def statusDeleted (n : Nat) : Chars :=
  if n = 1 then "1 record deleted.".data
  else (Nat.repr n ++ " records deleted.").data

/-- Status line of `Table.update`. -/
def statusModified (n : Nat) : Chars :=
  if n = 1 then "1 record modified.".data
  else (Nat.repr n ++ " records modified.").data

/-- Model of `Table.create`: write a fresh file whose sole row is the field-spec
header, with line terminator `’\n’` (the already-exists failure is a
filesystem check, elided here). -/
def createOp (name : Chars) (fields : List Chars) : Chars × Except TableErr Chars :=
  (writeRows ['\n'] [fields], .ok ("Table ".data ++ name ++ " created.".data))

/-- Model of `Table.alter`: append the new field to the header and an empty value
(Python `None`, serialized as the empty string) to every data row, then
rewrite the whole file with terminator `’\n’`. -/
def alterOp (name : Chars) (content : Chars) (new_field : Chars) :
    Chars × Except TableErr Chars :=
  match readRows content with
  | [] => (content, .error .emptyFile)
  | header :: rows =>
    (writeRows ['\n'] ((header ++ [new_field]) :: rows.map (· ++ [[]])),
     .ok ("Table ".data ++ name ++ " modified.".data))

/-- Model of `Table.insert`: arity-check against the schema, then append one
serialized row in append mode with `csv.writer`’s default (`excel`
dialect) terminator `"\r\n"`. -/
def insertOp (content : Chars) (values : List Chars) :
    Chars × Except TableErr Chars :=
  match get_field_names content with
  | none => (content, .error .malformedHeader)
  | some fields =>
    if fields.length ≠ values.length then (content, .error .arityMismatch)
    else (content ++ csvLine values ++ ['\r', '\n'], .ok "1 new record inserted.".data)

/-- Model of `Table.delete`: keep the header, retain every row whose Record does not
satisfy the condition, rewrite the whole file with terminator `’\n’`,
report the count removed. -/
def deleteOp (content : Chars) (condition : Chars) :
    Chars × Except TableErr Chars :=
  match get_field_names content, get_field_types content with
  | some fns, some fts =>
    match readRows content with
    | [] => (content, .error .emptyFile)
    | header :: rows =>
      let kept := (rows.filter
          (fun row => ¬ Record.satisfies ⟨fns, fts, row⟩ (some condition))).map
          (fun row => Record.get_values ⟨fns, fts, row⟩ none)
      let cnt := rows.countP (fun row => Record.satisfies ⟨fns, fts, row⟩ (some condition))
      (writeRows ['\n'] (header :: kept), .ok (statusDeleted cnt))
  | _, _ => (content, .error .malformedHeader)

/-- Model of `Table.update`: fail with the unknown-field error when the target field
is not among the schema’s field names (the raise happens before the file is
opened for writing, so the content is untouched); otherwise set the field
on every satisfying row and rewrite the whole file with terminator `’\n’`. -/
def updateOp (content : Chars) (target_field new_value condition : Chars) :
    Chars × Except TableErr Chars :=
  match get_field_names content, get_field_types content with
  | some fns, some fts =>
    if target_field ∈ fns then
      match readRows content with
      | [] => (content, .error .emptyFile)
      | header :: rows =>
        let updated := rows.map (fun row =>
          let recd : Record := ⟨fns, fts, row⟩
          if recd.satisfies (some condition) then
            (recd.set_value target_field new_value).get_values none
          else recd.get_values none)
        let cnt := rows.countP (fun row => Record.satisfies ⟨fns, fts, row⟩ (some condition))
        (writeRows ['\n'] (header :: updated), .ok (statusModified cnt))
    else (content, .error (.unknownField target_field))
  | _, _ => (content, .error .malformedHeader)

/-- Model of `Table.single_select`: emit the header line (the raw stored header when
the selection is `*`, else the header fields whose first word is selected),
then one pipe-joined line per row whose Record satisfies the condition. -/
def single_select (content : Chars) (select_clause : List Chars)
    (where_clause : Option Chars) : Except TableErr (List Chars) :=
  match get_field_names content, get_field_types content with
  | some fns, some fts =>
    match readRows content with
    | [] => .error .emptyFile
    | header :: rows =>
      match header.mapM (fun f => (pySplit f).get? 0) with
      | none => .error .malformedHeader
      | some firsts =>
        let selHeader := (header.zip firsts).filterMap
          (fun p => if p.2 ∈ select_clause then some p.1 else none)
        let headerLine :=
          if select_clause = ["*".data] then outLine header else outLine selHeader
        let dataLines := rows.filterMap (fun row =>
          let recd : Record := ⟨fns, fts, row⟩
          if recd.satisfies where_clause then
            some (outLine (recd.get_values (some select_clause)))
          else none)
        .ok (headerLine :: dataLines)
  | _, _ => .error .malformedHeader

/-- The body of `Table.join_select`’s outer loop for one left row: the
pipe-joined projection of every combined row satisfying the condition,
followed — only for a `LEFT` join under which no right row matched — by
exactly one extra line made of the left row’s values padded with empty
strings up to the combined header’s width. -/
def join_row_output (fns fts : List Chars) (select_clause : List Chars)
    (where_clause : Option Chars) (join_type : Option Chars)
    (headerLen : Nat) (l_row : List Chars) (rightRows : List (List Chars)) :
    List Chars :=
  let matched := rightRows.filterMap (fun r_row =>
    let recd : Record := ⟨fns, fts, l_row ++ r_row⟩
    if recd.satisfies where_clause then
      some (outLine (recd.get_values (some select_clause)))
    else none)
  matched ++
    (if join_type = some "LEFT".data ∧ matched = [] then
      [outLine (l_row ++ List.replicate (headerLen - l_row.length) [])]
    else [])

/-- Model of `Table.join_select`: combined schema is left fields followed by right
fields; any `alias.` prefix is stripped from the condition text by literal
substring replacement; execution is a nested loop over both row lists,
emitting the combined header line first.  (When an alias is set but the
condition is absent, the source’s `None.replace` raises — modelled as an
error.) -/
def join_select (lcontent rcontent : Chars) (select_clause : List Chars)
    (where_clause : Option Chars) (join_type : Option Chars)
    (lalias ralias : Option Chars) : Except TableErr (List Chars) :=
  match get_field_names lcontent, get_field_types lcontent,
        get_field_names rcontent, get_field_types rcontent with
  | some lfns, some lfts, some rfns, some rfts =>
    let fns := lfns ++ rfns
    let fts := lfts ++ rfts
    match lalias, ralias, where_clause with
    | some _, _, none => .error .aliasOnNone
    | _, some _, none => .error .aliasOnNone
    | _, _, _ =>
      let wc1 := match lalias, where_clause with
        | some a, some w => some (removeAllSub (a ++ ".".data) w)
        | _, w => w
      let wc2 := match ralias, wc1 with
        | some a, some w => some (removeAllSub (a ++ ".".data) w)
        | _, w => w
      match readRows lcontent, readRows rcontent with
      | lheader :: lrows, rheader :: rrows =>
        let header := lheader ++ rheader
        .ok (outLine header ::
          lrows.flatMap (fun l_row =>
            join_row_output fns fts select_clause wc2 join_type
              header.length l_row rrows))
      | _, _ => .error .emptyFile
  | _, _, _, _ => .error .malformedHeader

/-- The scalar an aggregation emits. -/
inductive AggValue
  | cnt (n : Nat)
  | mx (v : Int)
  | avg (q : ℚ)
  | novalue
deriving DecidableEq

/-- The aggregation keyword: the regex `.*(?=\()` takes everything before
the last opening parenthesis. -/
def agg_type_of (s : Chars) : Option Chars :=
  match splitOnChar '(' s with
  | [] => none
  | [_] => none
  | parts => some (intercalateChar '(' parts.dropLast)

/-- The aggregated field: the regex `(?<=\().*(?=\))` takes everything
between the first opening and the last closing parenthesis. -/
def agg_field_of (s : Chars) : Option Chars :=
  match splitOnChar '(' s with
  | [] => none
  | [_] => none
  | _ :: rest =>
    match splitOnChar ')' (intercalateChar '(' rest) with
    | [] => none
    | [_] => none
    | parts => some (intercalateChar ')' parts.dropLast)

/-- The value-collection loop of `Table.agg_select`: the named field of
every data row coerced to an integer (`None` when some value fails the
`int()` coercion). -/
def aggValues (fns fts : List Chars) (rows : List (List Chars)) (afld : Chars) :
    Option (List Int) :=
  rows.mapM (fun row =>
    ((Record.get_values ⟨fns, fts, row⟩ (some [afld])).head?).bind parseInt)

/-- Model of `Table.agg_select`: coerce the named field of every data row to an
integer, then COUNT emits the row count, MAX the maximum (raising on an
empty sequence), AVG the exact value of `(sum * 1.0) / count` (raising a
division error when the count is zero; the quotient of in-range integers
is modelled exactly in `ℚ`).  An aggregation keyword other than the three
uppercase ones prints no scalar.  The echo of the select entry that the
source prints before the scalar is the first component of the result. -/
def agg_select (content : Chars) (entry : Chars) :
    Except TableErr (Chars × AggValue) :=
  match agg_type_of entry, agg_field_of entry with
  | some aty, some afld =>
    match get_field_names content, get_field_types content with
    | some fns, some fts =>
      match readRows content with
      | [] => .error .emptyFile
      | _header :: rows =>
        match aggValues fns fts rows afld with
        | none => .error .typeCoercion
        | some values =>
          if aty = "COUNT".data then .ok (entry, .cnt values.length)
          else if aty = "MAX".data then
            match values with
            | [] => .error .maxEmpty
            | v :: vs => .ok (entry, .mx (vs.foldl max v))
          else if aty = "AVG".data then
            if values.length = 0 then .error .divByZero
            else .ok (entry, .avg ((values.sum : ℚ) / (values.length : ℚ)))
          else .ok (entry, .novalue)
    | _, _ => .error .malformedHeader
  | _, _ => .error .malformedHeader

/-!  ## The Statement Dispatcher and Statement Model (statement.py)

The dispatcher’s shape predicates are Python `re.search` calls with the
`(?i)` flag on single-line command text; each is modelled as a
case-insensitive scan over the input.  `(.*)` groups always match, so they
constrain nothing. -/

/-- Case folding used to model the `(?i)` regex flag. -/
def upperC (l : Chars) : Chars := l.map Char.toUpper

/-- Does `p` start the list? -/
def startsWithL : Chars → Chars → Bool
  | [], _ => true
  | _ :: _, [] => false
  | p :: ps, c :: cs => p = c && startsWithL ps cs

/-- Does some suffix of the list satisfy `p` (the scan of `re.search`)? -/
def existsSuffix (p : Chars → Bool) : Chars → Bool
  | [] => p []
  | c :: rest => p (c :: rest) || existsSuffix p rest

/-- Model of `re.search` for a plain pattern under `(?i)`: the uppercased pattern
occurs somewhere in the uppercased input. -/
def ciContains (pat : Chars) (s : Chars) : Bool :=
  existsSuffix (startsWithL pat) (upperC s)

/-- The regex class `\w` (ASCII fragment). -/
def isWordChar (c : Char) : Bool := c.isAlphanum || c = '_'

/-- Two leading word characters (the `\w{2}` tail of the DROP/USE patterns). -/
def twoWordChars : Chars → Bool
  | a :: b :: _ => isWordChar a && isWordChar b
  | _ => false

/-- Pattern `(?i)(ALTER )(.*)` -/
def is_alter (s : Chars) : Bool := ciContains "ALTER ".data s

/-- Pattern `(?i)(BEGIN TRANSACTION)` -/
def is_begin (s : Chars) : Bool := ciContains "BEGIN TRANSACTION".data s

/-- Pattern `(?i)(CREATE )(.*)` -/
def is_create (s : Chars) : Bool := ciContains "CREATE ".data s

/-- Pattern `(?i)(COMMIT)` -/
def is_commit (s : Chars) : Bool := ciContains "COMMIT".data s

/-- Pattern `(?i)(DELETE FROM )(.*)` -/
def is_delete (s : Chars) : Bool := ciContains "DELETE FROM ".data s

/-- Pattern `(?i)(DROP )\w{2}` -/
def is_drop (s : Chars) : Bool :=
  existsSuffix (fun t => startsWithL "DROP ".data t && twoWordChars (t.drop 5)) (upperC s)

/-- Pattern `(?i)(INSERT INTO )(.*)` -/
def is_insert (s : Chars) : Bool := ciContains "INSERT INTO ".data s

/-- Pattern `(?i)(SELECT )(.*)` -/
def is_select (s : Chars) : Bool := ciContains "SELECT ".data s

/-- Pattern `(?i)(UPDATE )(.*)( SET )(.*)`: an occurrence of `UPDATE ` followed,
anywhere later on the line, by ` SET `. -/
def is_update (s : Chars) : Bool :=
  existsSuffix
    (fun t => startsWithL "UPDATE ".data t && existsSuffix (startsWithL " SET ".data) (t.drop 7))
    (upperC s)

/-- Pattern `(?i)(USE )\w{2}` -/
def is_use (s : Chars) : Bool :=
  existsSuffix (fun t => startsWithL "USE ".data t && twoWordChars (t.drop 4)) (upperC s)

/-- The ten statement variants `StatementFactory.make_statement` can build. -/
inductive StKind
  | alter | beginTx | create | commitTx | delete | drop | insert | select | update | use
deriving DecidableEq

/-- The shape predicate of each statement kind. -/
def matchesKind : StKind → Chars → Bool
  | .alter, s => is_alter s
  | .beginTx, s => is_begin s
  | .create, s => is_create s
  | .commitTx, s => is_commit s
  | .delete, s => is_delete s
  | .drop, s => is_drop s
  | .insert, s => is_insert s
  | .select, s => is_select s
  | .update, s => is_update s
  | .use, s => is_use s

/-- The position of each kind in the dispatcher’s fixed test order. -/
def kindIndex : StKind → Nat
  | .alter => 0
  | .beginTx => 1
  | .create => 2
  | .commitTx => 3
  | .delete => 4
  | .drop => 5
  | .insert => 6
  | .select => 7
  | .update => 8
  | .use => 9

/-- Model of `StatementFactory.make_statement`: test the predicates in order, first
match wins; no match raises `Command not supported: ` + the original text. -/
def make_statement (s : Chars) : Except Chars StKind :=
  if is_alter s then .ok .alter
  else if is_begin s then .ok .beginTx
  else if is_create s then .ok .create
  else if is_commit s then .ok .commitTx
  else if is_delete s then .ok .delete
  else if is_drop s then .ok .drop
  else if is_insert s then .ok .insert
  else if is_select s then .ok .select
  else if is_update s then .ok .update
  else if is_use s then .ok .use
  else .error ("Command not supported: ".data ++ s)

/-- Modelled from the spec: `utils.KEYWORDS_OBJECTS` is not under src/; per
the spec, the valid object kinds for CREATE/DROP are DATABASE and TABLE. -/
def KEYWORDS_OBJECTS : List Chars := ["DATABASE".data, "TABLE".data]

/-- The two distinct exceptions `CreateStatement.__init__` can raise:
`Invalid CREATE command. Please check syntax` (min_size / correct_size) and
`Invalid CREATE command. Valid objects are CREATE DATABASE <name> or CREATE
TABLE <name>` (valid_type). -/
inductive CreateErr
  | invalidSyntax
  | invalidObjectType
deriving DecidableEq

/-- A constructed CREATE statement: its upper-cased object kind, the object
name (third token) and the whitespace token list. -/
structure CreateStmt where
  ctype : Chars
  object_name : Chars
  parsed : List Chars
deriving DecidableEq

/-- Model of `CreateStatement.__init__`: check `min_size` (at least 3 whitespace
tokens), read the kind and name, check `correct_size` — which returns
`num_words == 3` for DATABASE, `num_words >= 3` for TABLE, and falls
through returning Python `None` (falsy) for any other kind — and only then
check `valid_type`. -/
def createStatement_init (s : Chars) : Except CreateErr CreateStmt :=
  let parsed := pySplit s
  if parsed.length < 3 then .error .invalidSyntax
  else
    let ty := upperC (parsed.getD 1 [])
    let objectName := parsed.getD 2 []
    let cs : Bool :=
      if ty = "DATABASE".data then parsed.length = 3
      else if ty = "TABLE".data then decide (3 ≤ parsed.length)
      else false
    -- the source raises the syntax error on `not self.correct_size()`, and
    -- only afterwards tests `valid_type`
    if cs then
      if ty ∈ KEYWORDS_OBJECTS then .ok ⟨ty, objectName, parsed⟩
      else .error .invalidObjectType
    else .error .invalidSyntax

/-- Length of the longest comma-free prefix (the greedy `[^,]*`). -/
def runNonComma : Chars → Nat
  | [] => 0
  | c :: rest => if c = ',' then 0 else runNonComma rest + 1

/-- The scan of `re.findall(r’(?![(].*)[^,]*(?=.*[)]$)’, s)` over a string
whose last character is `)`: at a position holding `(` the lookahead fails
and the scan advances; elsewhere the greedy `[^,]*` backtracks to the
longest match that still leaves a nonempty remainder (which then ends with
the final `)`), so the match length is `min` of the comma-free run and the
distance to the last character; an empty match advances the scan by one. -/
def pfScanAuxF : Nat → Chars → List Chars
  | _, [] => []
  | 0, _ :: _ => []
  | Nat.succ fuel, c :: rest =>
    if c = '(' then pfScanAuxF fuel rest
    else
      let m := min (runNonComma (c :: rest)) rest.length
      if m = 0 then [] :: pfScanAuxF fuel rest
      else
        (c :: rest).take m :: pfScanAuxF fuel ((c :: rest).drop m)

/-- The scan started with fuel equal to the input length: every step drops
at least one character, so the fuel never runs out before the input does. -/
def pfScanAux (t : Chars) : List Chars :=
  pfScanAuxF t.length t

/-- Model of `CreateStatement.parse_fields`: the findall scan (empty when the input
does not end in `)`, since the `(?=.*[)]$)` lookahead can never hold),
then drop empty matches and strip the rest. -/
def parse_fields (s : Chars) : List Chars :=
  let raw := if s.getLast? = some ')' then pfScanAux s else []
  (raw.filter (· ≠ [])).map stripChars

/-- The field specs a `CREATE TABLE` command passes to `Table.create`:
`’ ’.join(parsed[3:])` fed to `parse_fields`. -/
def create_fields_of (s : Chars) : Option (List Chars) :=
  match createStatement_init s with
  | .ok st =>
    if st.ctype = "TABLE".data then
      some (parse_fields (intercalateChar ' ' (st.parsed.drop 3)))
    else none
  | .error _ => none

/-- Everything between the first `bo` and the last `bc` of the input (the
shape of the `(?<=\().*(?=\))` extraction). -/
def betweenFirstLast (bo bc : Char) (s : Chars) : Option Chars :=
  match splitOnChar bo s with
  | [] => none
  | [_] => none
  | _ :: rest =>
    match splitOnChar bc (intercalateChar bo rest) with
    | [] => none
    | [_] => none
    | parts => some (intercalateChar bc parts.dropLast)

/-- Model of `InsertStatement.parse_clauses`, values part: comma-split the contents
between the first `(` and the last `)`, drop raw empty entries, strip each
and remove every apostrophe. -/
def insert_values_of (s : Chars) : Option (List Chars) :=
  (betweenFirstLast '(' ')' s).map (fun inner =>
    ((splitOnChar ',' inner).filter (· ≠ [])).map
      (fun i => removeAllChar apos (stripChars i)))

/-- A constructed SELECT statement (the clauses `SelectStatement.parse_clauses`
stores). -/
structure SelectStmt where
  select_clause : List Chars
  where_clause : Option Chars
  left_table_name : Chars
  left_table_alias : Option Chars
  right_table_name : Option Chars
  right_table_alias : Option Chars
  join_type : Option Chars
deriving DecidableEq

/-- Model of `SelectStatement.set_table_name`: the source guards on a join being
present and then evaluates `self.left_table_name == new_name` — a
comparison whose Bool result is discarded, not an assignment — so no field
changes on either branch. -/
def SelectStmt.set_table_name (s : SelectStmt) (new_name : Chars) : SelectStmt :=
  if s.join_type ≠ none then
    let _ : Bool := decide (s.left_table_name = new_name)
    s
  else s

/-!  ## Concrete tables and commands used by the claims -/

/-- The stored file of a table `t` with schema `(id int, name varchar)`
and no data rows (exactly what `CREATE TABLE t (id int, name varchar)`
writes). -/
def tContent : Chars := "id int,name varchar\n".data

/-- The command `INSERT INTO t VALUES (1,’Ann’)` (apostrophes assembled
around `Ann`). -/
def insertCmd : Chars :=
  "INSERT INTO t VALUES (1,".data ++ [apos] ++ "Ann".data ++ [apos] ++ ")".data

/-- The file content of `t` after inserting the row `(1, Ann)`. -/
def tContentIns : Chars := (insertOp tContent ["1".data, "Ann".data]).1

/-- A stored table holding scores 2, 4 and 6. -/
def scoresContent : Chars := "score int\n2\n4\n6\n".data

/-- The scores table with zero data rows. -/
def scoresEmpty : Chars := "score int\n".data

/-- A field is simple when it contains no csv metacharacter, so that
`csv.writer` serializes it verbatim. -/
def simpleField (f : Chars) : Prop :=
  ∀ c ∈ f, c ≠ ',' ∧ c ≠ '"' ∧ c ≠ '\r' ∧ c ≠ '\n'

/-- A row in canonical serialized form: nonempty, not the single empty
field (which `csv.writer` writes quoted), and all fields simple. -/
def simpleRow (r : List Chars) : Prop :=
  r ≠ [] ∧ r ≠ [[]] ∧ ∀ f ∈ r, simpleField f

instance : DecidablePred simpleField := fun f => by
  unfold simpleField
  infer_instance

instance : DecidablePred simpleRow := fun r => by
  unfold simpleRow
  infer_instance

/-!  ## Lemmas about the char-level serialization model -/

theorem map_self_of_eq {α : Type} (f : α → α) (l : List α)
    (h : ∀ a ∈ l, f a = a) : l.map f = l := by
  induction l with
  | nil => rfl
  | cons x xs ih => simp [h x (by simp), ih (fun a ha => h a (by simp [ha]))]

theorem splitOnP_ne_nil (p : Char → Bool) (l : Chars) : splitOnP p l ≠ [] := by
  cases l with
  | nil => simp [splitOnP]
  | cons c rest =>
    simp only [splitOnP]
    cases h : splitOnP p rest with
    | nil => simp
    | cons y ys => by_cases hp : p c <;> simp [hp]

theorem splitOnP_cons_eq (p : Char → Bool) (c : Char) (rest : Chars)
    (y : Chars) (ys : List Chars) (h : splitOnP p rest = y :: ys) :
    splitOnP p (c :: rest) = if p c then [] :: y :: ys else (c :: y) :: ys := by
  simp only [splitOnP, h]

theorem splitOnP_dest (p : Char → Bool) (l : Chars) :
    ∃ y ys, splitOnP p l = y :: ys := by
  cases h : splitOnP p l with
  | nil => exact absurd h (splitOnP_ne_nil p l)
  | cons y ys => exact ⟨y, ys, rfl⟩

theorem splitOnP_append_cons (p : Char → Bool) (a : Chars) (c : Char) (b : Chars)
    (hc : p c = true) (ha : ∀ x ∈ a, p x = false) :
    splitOnP p (a ++ c :: b) = a :: splitOnP p b := by
  induction a with
  | nil =>
    obtain ⟨y, ys, h⟩ := splitOnP_dest p b
    rw [List.nil_append, splitOnP_cons_eq p c b y ys h, if_pos hc, h]
  | cons x xs ih =>
    have hx : p x = false := ha x (by simp)
    have ha' : ∀ y ∈ xs, p y = false := fun y hy => ha y (by simp [hy])
    rw [List.cons_append, splitOnP_cons_eq p x (xs ++ c :: b) xs (splitOnP p b) (ih ha')]
    simp [hx]

theorem splitOnP_of_no_sep (p : Char → Bool) (x : Chars)
    (hx : ∀ c ∈ x, p c = false) : splitOnP p x = [x] := by
  induction x with
  | nil => rfl
  | cons c rest ih =>
    have hc : p c = false := hx c (by simp)
    have h' : ∀ y ∈ rest, p y = false := fun y hy => hx y (by simp [hy])
    simp only [splitOnP, ih h']
    simp [hc]

theorem splitOnP_intercalate (sep : Char) (parts : List Chars) (hne : parts ≠ [])
    (hs : ∀ pt ∈ parts, ∀ c ∈ pt, c ≠ sep) :
    splitOnChar sep (intercalateChar sep parts) = parts := by
  induction parts with
  | nil => exact absurd rfl hne
  | cons x xs ih =>
    cases xs with
    | nil =>
      have hx : ∀ c ∈ x, decide (c = sep) = false := by
        intro c hcx
        simpa using hs x (by simp) c hcx
      simpa [intercalateChar] using splitOnP_of_no_sep _ x hx
    | cons y ys =>
      have hstep : intercalateChar sep (x :: y :: ys) = x ++ sep :: intercalateChar sep (y :: ys) := rfl
      have hx : ∀ c ∈ x, decide (c = sep) = false := by
        intro c hcx
        simpa using hs x (by simp) c hcx
      rw [hstep, splitOnChar, splitOnP_append_cons _ x sep _ (by simp) hx]
      rw [show splitOnP (fun c => decide (c = sep)) (intercalateChar sep (y :: ys))
            = splitOnChar sep (intercalateChar sep (y :: ys)) from rfl]
      rw [ih (by simp) (fun pt hpt => hs pt (by simp [hpt]))]

theorem mem_splitOnP_subset (p : Char → Bool) (l : Chars) :
    ∀ pt ∈ splitOnP p l, ∀ c ∈ pt, c ∈ l ∧ p c = false := by
  induction l with
  | nil =>
    intro pt hpt c hc
    simp [splitOnP] at hpt
    subst hpt
    simp at hc
  | cons d rest ih =>
    intro pt hpt c hc
    obtain ⟨y, ys, h⟩ := splitOnP_dest p rest
    rw [splitOnP_cons_eq p d rest y ys h] at hpt
    by_cases hd : p d
    · rw [if_pos hd] at hpt
      rcases List.mem_cons.mp hpt with rfl | hpt
      · simp at hc
      · have := ih pt (h ▸ hpt) c hc
        exact ⟨List.mem_cons_of_mem d this.1, this.2⟩
    · rw [if_neg hd] at hpt
      rcases List.mem_cons.mp hpt with rfl | hpt
      · rcases List.mem_cons.mp hc with rfl | hcy
        · exact ⟨by simp, by simpa using hd⟩
        · have hy : y ∈ splitOnP p rest := h ▸ List.mem_cons_self y ys
          have := ih y hy c hcy
          exact ⟨List.mem_cons_of_mem d this.1, this.2⟩
      · have hpt' : pt ∈ splitOnP p rest := h ▸ List.mem_cons_of_mem y hpt
        have := ih pt hpt' c hc
        exact ⟨List.mem_cons_of_mem d this.1, this.2⟩

theorem mem_intercalate (sep : Char) (parts : List Chars) (c : Char)
    (hc : c ∈ intercalateChar sep parts) : c = sep ∨ ∃ pt ∈ parts, c ∈ pt := by
  induction parts with
  | nil => simp [intercalateChar] at hc
  | cons x xs ih =>
    cases xs with
    | nil =>
      simp only [intercalateChar] at hc
      exact Or.inr ⟨x, by simp, hc⟩
    | cons y ys =>
      rw [show intercalateChar sep (x :: y :: ys) = x ++ sep :: intercalateChar sep (y :: ys) from rfl] at hc
      rcases List.mem_append.mp hc with h | h
      · exact Or.inr ⟨x, by simp, h⟩
      · rcases List.mem_cons.mp h with rfl | h
        · exact Or.inl rfl
        · rcases ih h with h | ⟨pt, hpt, hcpt⟩
          · exact Or.inl h
          · exact Or.inr ⟨pt, by simp [hpt], hcpt⟩

theorem csvField_of_simple (f : Chars) (hf : simpleField f) : csvField f = f := by
  have hq : needsQuote f = false := by
    rw [needsQuote, List.any_eq_false]
    intro c hcf
    rcases hf c hcf with ⟨h1, h2, h3, h4⟩
    simp [h1, h2, h3, h4]
  simp [csvField, hq]

theorem mem_csvField (f : Chars) (c : Char) (hc : c ∈ csvField f) :
    c = '"' ∨ c ∈ f := by
  unfold csvField at hc
  split at hc
  · unfold quoteField at hc
    rcases List.mem_cons.mp hc with rfl | hc
    · exact Or.inl rfl
    rcases List.mem_append.mp hc with hc | hc
    · rcases List.mem_flatMap.mp hc with ⟨d, hd, hcd⟩
      by_cases hq : d = '"'
      · rw [if_pos hq] at hcd
        rcases List.mem_cons.mp hcd with rfl | hcd
        · exact Or.inl rfl
        · simp at hcd
          exact Or.inl hcd
      · rw [if_neg hq] at hcd
        simp at hcd
        exact Or.inr (hcd ▸ hd)
    · simp at hc
      exact Or.inl hc
  · exact Or.inr hc

theorem mem_csvLine (r : List Chars) (c : Char) (hc : c ∈ csvLine r) :
    c = '"' ∨ c = ',' ∨ ∃ f ∈ r, c ∈ f := by
  unfold csvLine at hc
  split at hc
  · simp at hc
    exact Or.inl hc
  · rcases mem_intercalate ',' _ c hc with h | ⟨pt, hpt, hcpt⟩
    · exact Or.inr (Or.inl h)
    · rcases List.mem_map.mp hpt with ⟨f, hf, rfl⟩
      rcases mem_csvField f c hcpt with h | h
      · exact Or.inl h
      · exact Or.inr (Or.inr ⟨f, hf, h⟩)

theorem mem_writeRows (term : Chars) (rows : List (List Chars)) (c : Char)
    (hc : c ∈ writeRows term rows) :
    c ∈ term ∨ c = '"' ∨ c = ',' ∨ ∃ r ∈ rows, ∃ f ∈ r, c ∈ f := by
  unfold writeRows at hc
  rcases List.mem_flatten.mp hc with ⟨s, hs, hcs⟩
  rcases List.mem_map.mp hs with ⟨r, hr, rfl⟩
  rcases List.mem_append.mp hcs with h | h
  · rcases mem_csvLine r c h with h | h | ⟨f, hf, hcf⟩
    · exact Or.inr (Or.inl h)
    · exact Or.inr (Or.inr (Or.inl h))
    · exact Or.inr (Or.inr (Or.inr ⟨r, hr, f, hf, hcf⟩))
  · exact Or.inl h

theorem noCR_writeRows (rows : List (List Chars))
    (h : ∀ r ∈ rows, ∀ f ∈ r, '\r' ∉ f) : '\r' ∉ writeRows ['\n'] rows := by
  intro hc
  rcases mem_writeRows _ _ _ hc with h1 | h1 | h1 | ⟨r, hr, f, hf, hcf⟩
  · simp at h1
  · exact absurd h1 (by decide)
  · exact absurd h1 (by decide)
  · exact h r hr f hf hcf

theorem translateNewlines_of_noCR (l : Chars) (h : '\r' ∉ l) :
    translateNewlines l = l := by
  induction l with
  | nil => rfl
  | cons c rest ih =>
    have hc : c ≠ '\r' := fun e => h (by simp [e])
    have h' : '\r' ∉ rest := fun hr => h (List.mem_cons_of_mem _ hr)
    rw [translateNewlines.eq_def]
    split <;> simp_all

theorem no_newline_csvLine (r : List Chars) (hr : simpleRow r) :
    '\n' ∉ csvLine r := by
  intro hc
  rcases mem_csvLine r '\n' hc with h | h | ⟨f, hf, hcf⟩
  · exact absurd h (by decide)
  · exact absurd h (by decide)
  · exact (hr.2.2 f hf '\n' hcf).2.2.2 rfl

theorem splitNL_writeRows (rows : List (List Chars))
    (h : ∀ r ∈ rows, '\n' ∉ csvLine r) :
    splitOnChar '\n' (writeRows ['\n'] rows) = rows.map csvLine ++ [[]] := by
  induction rows with
  | nil => rfl
  | cons r rest ih =>
    have hstep : writeRows ['\n'] (r :: rest)
        = csvLine r ++ '\n' :: writeRows ['\n'] rest := by
      simp [writeRows]
    have hr : ∀ x ∈ csvLine r, decide (x = '\n') = false := by
      intro x hx
      simp only [decide_eq_false_iff_not]
      intro e
      exact h r (by simp) (e ▸ hx)
    rw [hstep, splitOnChar, splitOnP_append_cons _ _ _ _ (by simp) hr]
    rw [show splitOnP (fun c => decide (c = '\n')) (writeRows ['\n'] rest)
          = splitOnChar '\n' (writeRows ['\n'] rest) from rfl]
    rw [ih (fun x hx => h x (by simp [hx]))]
    rfl

theorem fileLines_writeRows (rows : List (List Chars))
    (hnl : ∀ r ∈ rows, '\n' ∉ csvLine r)
    (hcr : ∀ r ∈ rows, ∀ f ∈ r, '\r' ∉ f) :
    fileLines (writeRows ['\n'] rows) = rows.map csvLine := by
  unfold fileLines
  rw [translateNewlines_of_noCR _ (noCR_writeRows rows hcr), splitNL_writeRows rows hnl]
  simp [List.getLast?_concat, List.dropLast_concat]

theorem csvLine_of_simple (r : List Chars) (hr : simpleRow r) :
    csvLine r = intercalateChar ',' r := by
  unfold csvLine
  rw [if_neg hr.2.1]
  congr 1
  exact map_self_of_eq csvField r (fun f hf => csvField_of_simple f (hr.2.2 f hf))

theorem intercalate_comma_ne_nil (r : List Chars) (h1 : r ≠ []) (h2 : r ≠ [[]]) :
    intercalateChar ',' r ≠ [] := by
  match r with
  | [x] =>
    simp only [intercalateChar]
    intro hx
    exact h2 (by rw [hx])
  | x :: y :: ys =>
    cases x <;> simp [intercalateChar]

theorem csvParseLine_csvLine (r : List Chars) (hr : simpleRow r) :
    csvParseLine (csvLine r) = r := by
  rw [csvLine_of_simple r hr]
  unfold csvParseLine
  rw [if_neg (intercalate_comma_ne_nil r hr.1 hr.2.1)]
  exact splitOnP_intercalate ',' r hr.1 (fun pt hpt c hc => (hr.2.2 pt hpt c hc).1)

theorem readRows_writeRows (rows : List (List Chars))
    (h : ∀ r ∈ rows, simpleRow r) :
    readRows (writeRows ['\n'] rows) = rows := by
  unfold readRows
  rw [fileLines_writeRows rows (fun r hr => no_newline_csvLine r (h r hr))
        (fun r hr f hf hc => ((h r hr).2.2 f hf '\r' hc).2.2.1 rfl)]
  rw [List.map_map]
  exact map_self_of_eq _ rows (fun r hr => csvParseLine_csvLine r (h r hr))

theorem mem_readRows_field (content : Chars) (hc : '\r' ∉ content)
    (row : List Chars) (hrow : row ∈ readRows content)
    (f : Chars) (hf : f ∈ row) (c : Char) (hcf : c ∈ f) : c ∈ content := by
  unfold readRows at hrow
  rcases List.mem_map.mp hrow with ⟨line, hline, rfl⟩
  unfold fileLines at hline
  rw [translateNewlines_of_noCR content hc] at hline
  have hline' : line ∈ splitOnChar '\n' content := by
    by_cases hlast : (splitOnChar '\n' content).getLast? = some ([] : Chars)
    · rw [if_pos hlast] at hline
      exact List.dropLast_subset _ hline
    · rw [if_neg hlast] at hline
      exact hline
  unfold csvParseLine at hf
  split at hf
  · simp at hf
  · have h1 := mem_splitOnP_subset _ line f hf c hcf
    exact (mem_splitOnP_subset _ content line hline' c h1.1).1

/-- Fields read back from a carriage-return-free file are themselves free
of carriage returns. -/
theorem noCR_field_of_readRows (content : Chars) (hc : '\r' ∉ content)
    (row : List Chars) (hrow : row ∈ readRows content)
    (f : Chars) (hf : f ∈ row) : '\r' ∉ f :=
  fun hcf => hc (mem_readRows_field content hc row hrow f hf '\r' hcf)

/-- The values written back for a row by `Table.update` come from the row
itself or are the new value. -/
theorem mem_set_value_values (fns fts row : List Chars) (tf nv f : Chars)
    (hf : f ∈ ((Record.mk fns fts row).set_value tf nv).values) :
    f ∈ row ∨ f = nv := by
  unfold Record.set_value at hf
  split at hf
  · simp only at hf
    rcases List.mem_or_eq_of_mem_set hf with h | h
    · exact Or.inl h
    · exact Or.inr h
  · exact Or.inl hf

/-!  ## The claims -/

/-- C4 (counterexample): after `INSERT INTO t VALUES (1,’Ann’)` into the
table with schema `(id int, name varchar)`, `SELECT * FROM t` emits the
raw stored header `id int|name varchar` — not `id|name` as claimed —
followed by the data line `1|Ann`. -/
theorem c4_counterexample :
    insert_values_of insertCmd = some ["1".data, "Ann".data] ∧
    single_select tContentIns ["*".data] none
      = .ok ["id int|name varchar".data, "1|Ann".data] ∧
    "id int|name varchar".data ≠ "id|name".data := by decide

/-- C4 (amended): after executing `INSERT INTO t VALUES (1,’Ann’)` against
a table with schema `(id int, name varchar)`, `SELECT * FROM t` emits the
raw stored header line `id int|name varchar` followed by the data line
`1|Ann`. -/
theorem c4_insert_select :
    insertOp tContent ["1".data, "Ann".data]
      = (tContentIns, .ok "1 new record inserted.".data) ∧
    tContentIns = "id int,name varchar\n1,Ann\r\n".data ∧
    single_select tContentIns ["*".data] none
      = .ok ["id int|name varchar".data, "1|Ann".data] := by decide

/-- C5 (counterexample): on a file whose data line was appended by INSERT
(and therefore ends in `"\r\n"`), a DELETE whose condition matches zero
rows reports `0 records deleted.` but rewrites the data section with the
canonical `"\n"` terminator, so the data section is not byte-identical. -/
theorem c5_counterexample :
    deleteOp "id int,name varchar\n1,Ann\r\n".data "id = 2".data
      = ("id int,name varchar\n1,Ann\n".data, .ok "0 records deleted.".data) ∧
    dataSection "id int,name varchar\n1,Ann\n".data
      ≠ dataSection "id int,name varchar\n1,Ann\r\n".data := by decide

/-- C5 (amended): on a table file in canonical serialized form (every row
nonempty, not a lone empty field, all fields free of csv metacharacters,
lines terminated by `"\n"`), a DELETE whose condition is satisfied by zero
rows leaves the whole file — in particular its data section —
byte-identical, and reports `0 records deleted.`. -/
theorem c5_delete_zero_match (header : List Chars) (rows : List (List Chars))
    (cond : Chars) (fns fts : List Chars)
    (hsimple : ∀ r ∈ header :: rows, simpleRow r)
    (hn : get_field_names (writeRows ['\n'] (header :: rows)) = some fns)
    (ht : get_field_types (writeRows ['\n'] (header :: rows)) = some fts)
    (hno : ∀ row ∈ rows, Record.satisfies ⟨fns, fts, row⟩ (some cond) = false) :
    deleteOp (writeRows ['\n'] (header :: rows)) cond
      = (writeRows ['\n'] (header :: rows), .ok "0 records deleted.".data) := by
  unfold deleteOp
  rw [hn, ht, readRows_writeRows (header :: rows) hsimple]
  have hfilter : rows.filter
      (fun row => ¬ Record.satisfies ⟨fns, fts, row⟩ (some cond) = true) = rows := by
    apply List.filter_eq_self.mpr
    intro r hr
    simp [hno r hr]
  have hcount : rows.countP
      (fun row => Record.satisfies ⟨fns, fts, row⟩ (some cond)) = 0 := by
    apply List.countP_eq_zero.mpr
    intro r hr
    simp [hno r hr]
  simp only [hfilter, hcount]
  have hmap : rows.map (fun row => Record.get_values ⟨fns, fts, row⟩ none) = rows :=
    map_self_of_eq _ rows (fun r _ => rfl)
  rw [hmap]
  rfl

/-- Witness for C5 (amended) at a concrete table: deleting `id = 2` from
the one-row table `(1, Ann)` returns the identical file content and the
status `0 records deleted.`. -/
theorem c5_delete_zero_match_witness :
    deleteOp (writeRows ['\n']
        [["id int".data, "name varchar".data], ["1".data, "Ann".data]]) "id = 2".data
      = (writeRows ['\n']
          [["id int".data, "name varchar".data], ["1".data, "Ann".data]],
         .ok "0 records deleted.".data) :=
  c5_delete_zero_match ["id int".data, "name varchar".data] [["1".data, "Ann".data]]
    "id = 2".data ["id".data, "name".data] ["int".data, "varchar".data]
    (by decide) (by decide) (by decide) (by decide)

/-- C6: an UPDATE whose target field is not among the schema’s field names
fails with the unknown-field error and returns the file content
unmodified (the source raises before opening the file for writing). -/
theorem c6_update_unknown_field (content : Chars) (fns fts : List Chars)
    (target_field new_value condition : Chars)
    (hn : get_field_names content = some fns)
    (ht : get_field_types content = some fts)
    (hf : target_field ∉ fns) :
    updateOp content target_field new_value condition
      = (content, .error (.unknownField target_field)) := by
  unfold updateOp
  rw [hn, ht]
  simp [hf]

/-- Witness for C6: updating the nonexistent field `age` of the
`(id int, name varchar)` table errors and leaves the content unchanged. -/
theorem c6_update_unknown_field_witness :
    updateOp tContent "age".data "5".data "id = 1".data
      = (tContent, .error (.unknownField "age".data)) :=
  c6_update_unknown_field tContent ["id".data, "name".data]
    ["int".data, "varchar".data] "age".data "5".data "id = 1".data
    (by decide) (by decide) (by decide)

/-- C7: `CREATE TABLE t (id int, name varchar)` parses the field specs
`id int` and `name varchar`; creating the table stores them as the header,
and reading the schema back yields the names and types paired in the same
order: `(id, int)` then `(name, varchar)`. -/
theorem c7_create_schema_roundtrip :
    create_fields_of "CREATE TABLE t (id int, name varchar)".data
      = some ["id int".data, "name varchar".data] ∧
    get_field_names (createOp "t".data ["id int".data, "name varchar".data]).1
      = some ["id".data, "name".data] ∧
    get_field_types (createOp "t".data ["id int".data, "name varchar".data]).1
      = some ["int".data, "varchar".data] ∧
    List.zip ["id".data, "name".data] ["int".data, "varchar".data]
      = [("id".data, "int".data), ("name".data, "varchar".data)] := by decide

set_option linter.unnecessarySeqFocus false in
/-- C8: a CREATE whose object kind is neither DATABASE nor TABLE is indeed
rejected at construction, and the token-size rules hold (DATABASE exactly
3 tokens, TABLE at least 3) — but the rejection raises the generic
`Invalid CREATE command. Please check syntax` error, never the
`InvalidObjectType` one: `correct_size` falls through returning Python
`None` for unknown kinds, so the `valid_type` raise is unreachable and
every construction is either a syntax error or a success. -/
theorem c8_create_object_type :
    createStatement_init "CREATE INDEX idx1".data = .error .invalidSyntax ∧
    createStatement_init "CREATE DATABASE d extra".data = .error .invalidSyntax ∧
    createStatement_init "CREATE TABLE".data = .error .invalidSyntax ∧
    (createStatement_init "CREATE DATABASE d".data).isOk = true ∧
    (createStatement_init "CREATE TABLE t x y".data).isOk = true ∧
    (∀ s : Chars, createStatement_init s = .error .invalidSyntax ∨
      (createStatement_init s).isOk = true) := by
  refine ⟨by decide, by decide, by decide, by decide, by decide, ?_⟩
  intro s
  by_cases h3 : (pySplit s).length < 3 <;>
    by_cases hd : upperC ((pySplit s).getD 1 []) = "DATABASE".data <;>
      by_cases ht2 : upperC ((pySplit s).getD 1 []) = "TABLE".data <;>
        by_cases hlen : (pySplit s).length = 3 <;>
          by_cases hge : 3 ≤ (pySplit s).length <;>
            simp_all [createStatement_init, KEYWORDS_OBJECTS, Except.isOk, Except.toBool] <;>
            (try (have h3x : ¬ (pySplit s).length < 3 := by omega
                  simp [h3x]))

/-- C10: for every SELECT statement — with or without a join — and every
new name, `set_table_name` returns the statement unchanged; in particular
the left table name is untouched. -/
theorem c10_select_set_table_name_noop (s : SelectStmt) (new_name : Chars) :
    (s.set_table_name new_name).left_table_name = s.left_table_name ∧
    s.set_table_name new_name = s := by
  unfold SelectStmt.set_table_name
  split <;> exact ⟨rfl, rfl⟩

/-- C1 (counterexample): the command text `ALTER TABLE t ADD DROP xy`
satisfies both the ALTER and the DROP shape predicates — two distinct
statement kinds match one input, so the claim that no input matches two
statement kinds simultaneously fails. -/
theorem c1_counterexample :
    matchesKind StKind.alter "ALTER TABLE t ADD DROP xy".data = true ∧
    matchesKind StKind.drop "ALTER TABLE t ADD DROP xy".data = true ∧
    StKind.alter ≠ StKind.drop := by decide

set_option maxHeartbeats 1000000 in
/-- C1 (amended): classification is a total function — every input either
yields the unique variant whose shape predicate is the first to match in
the fixed priority order (every earlier predicate failing on it), or the
unsupported-command error carrying the original text, the latter exactly
when no predicate matches.  Predicates may overlap; the priority order
makes the outcome unique. -/
theorem c1_classification (s : Chars) :
    (∀ k, make_statement s = .ok k →
      matchesKind k s = true ∧
        ∀ k2, kindIndex k2 < kindIndex k → matchesKind k2 s = false) ∧
    (make_statement s = .error ("Command not supported: ".data ++ s) ↔
      ∀ k, matchesKind k s = false) := by
  constructor
  · intro k hk
    unfold make_statement at hk
    repeat' (split at hk)
    all_goals first
      | exact Except.noConfusion hk
      | (injection hk with hke
         subst hke
         refine ⟨by simp_all [matchesKind], ?_⟩
         intro k2 hk2
         cases k2 <;> simp_all [matchesKind, kindIndex])
  · constructor
    · intro he k
      unfold make_statement at he
      repeat' (split at he)
      all_goals (try (exact Except.noConfusion he))
      all_goals (clear he; cases k <;> simp_all [matchesKind])
    · intro hall
      have h1 : is_alter s = false := by simpa [matchesKind] using hall .alter
      have h2 : is_begin s = false := by simpa [matchesKind] using hall .beginTx
      have h3 : is_create s = false := by simpa [matchesKind] using hall .create
      have h4 : is_commit s = false := by simpa [matchesKind] using hall .commitTx
      have h5 : is_delete s = false := by simpa [matchesKind] using hall .delete
      have h6 : is_drop s = false := by simpa [matchesKind] using hall .drop
      have h7 : is_insert s = false := by simpa [matchesKind] using hall .insert
      have h8 : is_select s = false := by simpa [matchesKind] using hall .select
      have h9 : is_update s = false := by simpa [matchesKind] using hall .update
      have h10 : is_use s = false := by simpa [matchesKind] using hall .use
      simp [make_statement, h1, h2, h3, h4, h5, h6, h7, h8, h9, h10]

/-- Witness for C1 (amended) at the concrete input `BEGIN TRANSACTION`:
its own predicate matches while the earlier ALTER predicate does not. -/
theorem c1_classification_witness :
    matchesKind StKind.beginTx "BEGIN TRANSACTION".data = true ∧
    matchesKind StKind.alter "BEGIN TRANSACTION".data = false :=
  ⟨((c1_classification "BEGIN TRANSACTION".data).1 StKind.beginTx (by decide)).1,
   ((c1_classification "BEGIN TRANSACTION".data).1 StKind.beginTx (by decide)).2
      StKind.alter (by decide)⟩

/-- C2: for every left row for which no combined (left, right) row
satisfies the condition during the full inner scan of the right rows, the
LEFT OUTER join emits — after the (empty) matched output of the inner
scan — exactly one additional line: the left row’s values padded with one
empty string per right-side column; the INNER join emits nothing for that
left row.  `join_select` itself emits the combined header line followed by
the concatenated per-left-row outputs. -/
theorem c2_left_outer_no_match
    (lcontent rcontent : Chars) (lfns lfts rfns rfts : List Chars)
    (sc : List Chars) (wc : Option Chars) (jt : Option Chars)
    (lheader rheader : List Chars) (lrows rrows : List (List Chars))
    (l_row : List Chars)
    (hlnames : get_field_names lcontent = some lfns)
    (hltypes : get_field_types lcontent = some lfts)
    (hrnames : get_field_names rcontent = some rfns)
    (hrtypes : get_field_types rcontent = some rfts)
    (hlread : readRows lcontent = lheader :: lrows)
    (hrread : readRows rcontent = rheader :: rrows)
    (hlen : l_row.length = lheader.length)
    (hnone : ∀ r ∈ rrows,
      Record.satisfies ⟨lfns ++ rfns, lfts ++ rfts, l_row ++ r⟩ wc = false) :
    join_select lcontent rcontent sc wc jt none none
      = .ok (outLine (lheader ++ rheader) ::
          lrows.flatMap (fun lr =>
            join_row_output (lfns ++ rfns) (lfts ++ rfts) sc wc jt
              (lheader ++ rheader).length lr rrows)) ∧
    join_row_output (lfns ++ rfns) (lfts ++ rfts) sc wc (some "LEFT".data)
        (lheader ++ rheader).length l_row rrows
      = [outLine (l_row ++ List.replicate rheader.length [])] ∧
    join_row_output (lfns ++ rfns) (lfts ++ rfts) sc wc (some "INNER".data)
        (lheader ++ rheader).length l_row rrows = [] := by
  have hmatched : rrows.filterMap (fun r_row =>
      if (Record.mk (lfns ++ rfns) (lfts ++ rfts) (l_row ++ r_row)).satisfies wc then
        some (outLine ((Record.mk (lfns ++ rfns) (lfts ++ rfts)
          (l_row ++ r_row)).get_values (some sc)))
      else none) = [] := by
    apply List.filterMap_eq_nil_iff.mpr
    intro r hr
    simp [hnone r hr]
  have hpad : (lheader ++ rheader).length - l_row.length = rheader.length := by
    rw [List.length_append, hlen]
    omega
  refine ⟨?_, ?_, ?_⟩
  · simp only [join_select, hlnames, hltypes, hrnames, hrtypes, hlread, hrread]
  · simp only [join_row_output, hmatched, hpad]
    simp
  · simp only [join_row_output, hmatched]
    simp

/-- Witness for C2 at concrete tables: left table holding the row
`(2, Bob)`, right table holding `(1)`, condition `id = 1` satisfied by no
combined row; the LEFT join line for the left row is `2|Bob|`. -/
theorem c2_left_outer_no_match_witness :
    join_select "id int,name varchar\n2,Bob\n".data "oid int\n1\n".data
        ["*".data] (some "id = 1".data) (some "LEFT".data) none none
      = .ok (outLine (["id int".data, "name varchar".data] ++ ["oid int".data]) ::
          [["2".data, "Bob".data]].flatMap (fun lr =>
            join_row_output (["id".data, "name".data] ++ ["oid".data])
              (["int".data, "varchar".data] ++ ["int".data])
              ["*".data] (some "id = 1".data) (some "LEFT".data)
              (["id int".data, "name varchar".data] ++ ["oid int".data]).length
              lr [["1".data]])) ∧
    join_row_output (["id".data, "name".data] ++ ["oid".data])
        (["int".data, "varchar".data] ++ ["int".data])
        ["*".data] (some "id = 1".data) (some "LEFT".data)
        (["id int".data, "name varchar".data] ++ ["oid int".data]).length
        ["2".data, "Bob".data] [["1".data]]
      = [outLine (["2".data, "Bob".data] ++ List.replicate ["oid int".data].length [])] ∧
    join_row_output (["id".data, "name".data] ++ ["oid".data])
        (["int".data, "varchar".data] ++ ["int".data])
        ["*".data] (some "id = 1".data) (some "INNER".data)
        (["id int".data, "name varchar".data] ++ ["oid int".data]).length
        ["2".data, "Bob".data] [["1".data]] = [] :=
  c2_left_outer_no_match "id int,name varchar\n2,Bob\n".data "oid int\n1\n".data
    ["id".data, "name".data] ["int".data, "varchar".data]
    ["oid".data] ["int".data]
    ["*".data] (some "id = 1".data) (some "LEFT".data)
    ["id int".data, "name varchar".data] ["oid int".data]
    [["2".data, "Bob".data]] [["1".data]] ["2".data, "Bob".data]
    (by decide) (by decide) (by decide) (by decide) (by decide) (by decide)
    (by decide) (by decide)

/-- C3: an aggregate SELECT whose single entry is `AVG(field)` emits, over
a table with at least one coercible data row, the exact value of the
arithmetic mean of the integer-coerced field values (the float division
`(sum * 1.0) / count` modelled exactly in `ℚ`); on scores 2, 4, 6 the
scalar is 4; over zero data rows AVG raises the division error and MAX the
empty-sequence error, while COUNT emits the row count 0. -/
theorem c3_agg_avg (content entry afld : Chars) (fns fts : List Chars)
    (header : List Chars) (rows : List (List Chars)) (vs : List Int)
    (hat : agg_type_of entry = some "AVG".data)
    (haf : agg_field_of entry = some afld)
    (hn : get_field_names content = some fns)
    (ht : get_field_types content = some fts)
    (hr : readRows content = header :: rows)
    (hv : aggValues fns fts rows afld = some vs)
    (hne : vs ≠ []) :
    agg_select content entry = .ok (entry, .avg ((vs.sum : ℚ) / (vs.length : ℚ))) ∧
    agg_select scoresContent "AVG(score)".data = .ok ("AVG(score)".data, .avg 4) ∧
    agg_select scoresEmpty "AVG(score)".data = .error .divByZero ∧
    agg_select scoresEmpty "MAX(score)".data = .error .maxEmpty ∧
    agg_select scoresEmpty "COUNT(score)".data = .ok ("COUNT(score)".data, .cnt 0) := by
  refine ⟨?_, ?_, by decide, by decide, by decide⟩
  · simp only [agg_select, hat, haf, hn, ht, hr, hv]
    have hlen0 : (vs.length = 0) = False := by
      simp [List.length_eq_zero, hne]
    simp [show ¬("AVG".data = "COUNT".data) from by decide,
      show ¬("AVG".data = "MAX".data) from by decide, hlen0]
  · have h4 : ((([2, 4, 6] : List Int).sum : ℚ) / (([2, 4, 6] : List Int).length : ℚ)) = 4 := by
      simp [List.sum_cons, List.sum_nil]
      norm_num
    calc agg_select scoresContent "AVG(score)".data
        = .ok ("AVG(score)".data,
            .avg ((([2, 4, 6] : List Int).sum : ℚ) / (([2, 4, 6] : List Int).length : ℚ))) := by rfl
      _ = .ok ("AVG(score)".data, .avg 4) := by rw [h4]

/-- Witness for C3 at the concrete scores table 2, 4, 6: the hypotheses of
the general AVG statement hold there and give the mean `(2+4+6)/3`. -/
theorem c3_agg_avg_witness :
    agg_select scoresContent "AVG(score)".data
      = .ok ("AVG(score)".data,
          .avg ((([2, 4, 6] : List Int).sum : ℚ) / (([2, 4, 6] : List Int).length : ℚ))) :=
  (c3_agg_avg scoresContent "AVG(score)".data "score".data ["score".data]
    ["int".data] ["score int".data] [["2".data], ["4".data], ["6".data]]
    [2, 4, 6] (by decide) (by decide) (by decide) (by decide) (by decide)
    (by decide) (by decide)).1

/-- C9 (counterexample): INSERT does not rewrite the file with a canonical
terminator — it appends one row with csv’s default `"\r\n"`, so after an
INSERT on a `"\n"`-terminated file the lines carry two different
terminators. -/
theorem c9_counterexample :
    (insertOp tContent ["1".data, "Ann".data]).1
      = "id int,name varchar\n1,Ann\r\n".data ∧
    lineTerminators (insertOp tContent ["1".data, "Ann".data]).1
      = ["\n".data, "\r\n".data] ∧
    ("\n".data : Chars) ≠ "\r\n".data := by decide

/-- C9 (amended): ALTER, CREATE, DELETE and UPDATE rewrite the whole file
using the single canonical terminator `"\n"` (on carriage-return-free
inputs the rewritten file contains no carriage return, so every line ends
in a bare `"\n"`), while INSERT instead appends exactly one serialized row
terminated by csv’s default `"\r\n"` to the existing content. -/
theorem c9_write_discipline
    (name content new_field new_value target_field condition : Chars)
    (fields values fns : List Chars)
    (hc : '\r' ∉ content) (hnf : '\r' ∉ new_field) (hnv : '\r' ∉ new_value)
    (hfl : ∀ f ∈ fields, '\r' ∉ f) :
    ('\r' ∉ (createOp name fields).1) ∧
    (∀ res msg, alterOp name content new_field = (res, .ok msg) → '\r' ∉ res) ∧
    (∀ res msg, deleteOp content condition = (res, .ok msg) → '\r' ∉ res) ∧
    (∀ res msg, updateOp content target_field new_value condition = (res, .ok msg) →
      '\r' ∉ res) ∧
    (get_field_names content = some fns → fns.length = values.length →
      insertOp content values
        = (content ++ csvLine values ++ ['\r', '\n'],
           .ok "1 new record inserted.".data)) := by
  refine ⟨?_, ?_, ?_, ?_, ?_⟩
  · show '\r' ∉ writeRows ['\n'] [fields]
    apply noCR_writeRows
    intro r hr f hf
    simp only [List.mem_singleton] at hr
    subst hr
    exact hfl f hf
  · intro res msg h
    unfold alterOp at h
    cases hread : readRows content with
    | nil =>
      rw [hread] at h
      simp at h
    | cons header rows =>
      rw [hread] at h
      simp only [Prod.mk.injEq] at h
      obtain ⟨h1, _⟩ := h
      subst h1
      apply noCR_writeRows
      intro r hr f hf
      have hmemh : header ∈ readRows content := by
        rw [hread]; exact List.mem_cons_self _ _
      rcases List.mem_cons.mp hr with rfl | hr
      · rcases List.mem_append.mp hf with hf | hf
        · exact noCR_field_of_readRows content hc _ hmemh f hf
        · simp only [List.mem_singleton] at hf
          subst hf
          exact hnf
      · rcases List.mem_map.mp hr with ⟨r0, hr0, rfl⟩
        have hmem0 : r0 ∈ readRows content := by
          rw [hread]; exact List.mem_cons_of_mem _ hr0
        rcases List.mem_append.mp hf with hf | hf
        · exact noCR_field_of_readRows content hc r0 hmem0 f hf
        · simp only [List.mem_singleton] at hf
          subst hf
          simp
  · intro res msg h
    unfold deleteOp at h
    cases hgn : get_field_names content with
    | none =>
      rw [hgn] at h
      simp at h
    | some fns2 =>
      cases hgt : get_field_types content with
      | none =>
        rw [hgn, hgt] at h
        simp at h
      | some fts2 =>
        simp only [hgn, hgt] at h
        cases hread : readRows content with
        | nil =>
          simp only [hread] at h
          simp at h
        | cons header rows =>
          simp only [hread, Prod.mk.injEq] at h
          obtain ⟨h1, _⟩ := h
          subst h1
          apply noCR_writeRows
          intro r hr f hf
          have hmemh : header ∈ readRows content := by
            rw [hread]; exact List.mem_cons_self _ _
          rcases List.mem_cons.mp hr with rfl | hr
          · exact noCR_field_of_readRows content hc _ hmemh f hf
          · rcases List.mem_map.mp hr with ⟨r0, hr0, rfl⟩
            have hr0' : r0 ∈ rows := (List.mem_filter.mp hr0).1
            have hmem0 : r0 ∈ readRows content := by
              rw [hread]; exact List.mem_cons_of_mem _ hr0'
            exact noCR_field_of_readRows content hc r0 hmem0 f hf
  · intro res msg h
    unfold updateOp at h
    cases hgn : get_field_names content with
    | none =>
      rw [hgn] at h
      simp at h
    | some fns2 =>
      cases hgt : get_field_types content with
      | none =>
        rw [hgn, hgt] at h
        simp at h
      | some fts2 =>
        simp only [hgn, hgt] at h
        by_cases hmem : target_field ∈ fns2
        · rw [if_pos hmem] at h
          cases hread : readRows content with
          | nil =>
            simp only [hread] at h
            simp at h
          | cons header rows =>
            simp only [hread, Prod.mk.injEq] at h
            obtain ⟨h1, _⟩ := h
            subst h1
            apply noCR_writeRows
            intro r hr f hf
            have hmemh : header ∈ readRows content := by
              rw [hread]; exact List.mem_cons_self _ _
            rcases List.mem_cons.mp hr with rfl | hr
            · exact noCR_field_of_readRows content hc _ hmemh f hf
            · rcases List.mem_map.mp hr with ⟨r0, hr0, rfl⟩
              have hmem0 : r0 ∈ readRows content := by
                rw [hread]; exact List.mem_cons_of_mem _ hr0
              by_cases hsat : Record.satisfies ⟨fns2, fts2, r0⟩ (some condition)
              · rw [if_pos hsat] at hf
                rcases mem_set_value_values fns2 fts2 r0 target_field new_value f hf
                  with hf0 | rfl
                · exact noCR_field_of_readRows content hc r0 hmem0 f hf0
                · exact hnv
              · rw [if_neg hsat] at hf
                exact noCR_field_of_readRows content hc r0 hmem0 f hf
        · rw [if_neg hmem] at h
          simp at h
  · intro hgn hlen
    unfold insertOp
    simp only [hgn]
    rw [if_neg (fun hne => hne hlen)]

/-- Witness for C9 (amended) at concrete inputs: creating a table writes a
carriage-return-free file, and inserting `(1, Ann)` into the
`(id int, name varchar)` table appends exactly `1,Ann` + `"\r\n"`. -/
theorem c9_write_discipline_witness :
    ('\r' ∉ (createOp "t".data ["id int".data, "name varchar".data]).1) ∧
    insertOp tContent ["1".data, "Ann".data]
      = (tContent ++ csvLine ["1".data, "Ann".data] ++ ['\r', '\n'],
         .ok "1 new record inserted.".data) :=
  ⟨(c9_write_discipline "t".data tContent "age int".data "5".data "id".data
      "id = 1".data ["id int".data, "name varchar".data] ["1".data, "Ann".data]
      ["id".data, "name".data] (by decide) (by decide) (by decide) (by decide)).1,
   (c9_write_discipline "t".data tContent "age int".data "5".data "id".data
      "id = 1".data ["id int".data, "name varchar".data] ["1".data, "Ann".data]
      ["id".data, "name".data] (by decide) (by decide) (by decide)
      (by decide)).2.2.2.2 (by decide) (by decide)⟩

end Dbms
